import Mathlib

/-!
Verification of the meme-editor overlay/export subsystem.

The data model and operations below are shallow embeddings of the
TypeScript source: `MemeText` from `src/types.ts`, the store operations
(`addText`, `updateText`, `removeText`, `setSelectedTextId`) and the
image/export handlers (`handleFileUpload`, `handleAiEditSuccess`,
`handleDownload`, ...) from the main application component, and the drag
handlers (`handleMouseDown`, `handleMouseMove`, `handleMouseUp`) from
`src/components/MemeCanvas.tsx`.  JavaScript numbers are modelled as
rationals; for the export path, where division by a zero container size
can occur, a small `JSVal` type with IEEE-style infinities and NaN models
the result of `/` and `*`.
-/

namespace MemeGen

/-- `MemeText` from `src/types.ts`: one text layer. -/
structure MemeText where
  id : String
  content : String
  x : ℚ
  y : ℚ
  fontSize : ℚ
  color : String
deriving DecidableEq, Repr

/-- A `Partial<MemeText>` patch: each field optionally overridden. -/
structure MemeTextPatch where
  id : Option String
  content : Option String
  x : Option ℚ
  y : Option ℚ
  fontSize : Option ℚ
  color : Option String
deriving DecidableEq, Repr

/-- The empty patch (no field present). -/
def emptyPatch : MemeTextPatch := ⟨none, none, none, none, none, none⟩

/-- Patch setting only `fontSize`. -/
def fontSizePatch (v : ℚ) : MemeTextPatch := { emptyPatch with fontSize := some v }

/-- Patch setting only the position, as the drag handler does. -/
def positionPatch (px py : ℚ) : MemeTextPatch := { emptyPatch with x := some px, y := some py }

/-- Patch setting only `content`, as the toolbar text input does. -/
def contentPatch (c : String) : MemeTextPatch := { emptyPatch with content := some c }

/-- Patch setting only `color`, as the toolbar color input does. -/
def colorPatch (c : String) : MemeTextPatch := { emptyPatch with color := some c }

/-- The JavaScript object spread `{...t, ...updates}`: fields present in
the patch override the fields of `t`. -/
def applyPatch (p : MemeTextPatch) (t : MemeText) : MemeText :=
  { id := p.id.getD t.id
    content := p.content.getD t.content
    x := p.x.getD t.x
    y := p.y.getD t.y
    fontSize := p.fontSize.getD t.fontSize
    color := p.color.getD t.color }

/-- `updateText` on the collection:
`prev.map(t => t.id === id ? { ...t, ...updates } : t)`. -/
def updateText (texts : List MemeText) (i : String) (p : MemeTextPatch) : List MemeText :=
  texts.map fun t => if t.id = i then applyPatch p t else t

/-- The `App` component state: image source, text layers, selection,
caption suggestions and the AI edit prompt. -/
structure AppState where
  image : String
  texts : List MemeText
  selectedTextId : Option String
  captions : List String
  editPrompt : String
deriving DecidableEq, Repr

/-- The initial `useState` values of `App`. -/
def initialState : AppState :=
  { image := "https://picsum.photos/800/600"
    texts := []
    selectedTextId := none
    captions := []
    editPrompt := "" }

/-- The fresh text built by `addText`: id is `Date.now().toString()`,
default position `(400, 300)`, `fontSize` 40, white color. -/
def newText (now : Nat) (initialContent : String) : MemeText :=
  { id := Nat.repr now
    content := initialContent
    x := 400
    y := 300
    fontSize := 40
    color := "#FFFFFF" }

/-- `addText`: appends the fresh text and selects it. `now` is the value
of `Date.now()` at the call. -/
def addText (s : AppState) (now : Nat) (initialContent : String) : AppState :=
  { s with texts := s.texts ++ [newText now initialContent]
           selectedTextId := some (newText now initialContent).id }

/-- `updateText` lifted to the app state. -/
def appUpdateText (s : AppState) (i : String) (p : MemeTextPatch) : AppState :=
  { s with texts := updateText s.texts i p }

/-- `removeText`: filters the id out and clears the selection when the
removed id was selected. -/
def removeText (s : AppState) (i : String) : AppState :=
  { s with texts := s.texts.filter fun t => t.id ≠ i
           selectedTextId := if s.selectedTextId = some i then none else s.selectedTextId }

/-- `setSelectedTextId`: the raw `useState` setter used for selection. -/
def setSelectedTextId (s : AppState) (i : Option String) : AppState :=
  { s with selectedTextId := i }

/-- `handleFileUpload` success path: sets the image from the data URL,
clears the texts and the caption list. -/
def handleFileUpload (s : AppState) (dataUrl : String) : AppState :=
  { s with image := dataUrl, texts := [], captions := [] }

/-- A template button click: `setImage(t.url)` and nothing else. -/
def selectTemplate (s : AppState) (url : String) : AppState :=
  { s with image := url }

/-- The Random button: `setImage` with a seeded URL and nothing else. -/
def setRandomImage (s : AppState) (now : Nat) : AppState :=
  { s with image := "https://picsum.photos/seed/" ++ Nat.repr now ++ "/800/600" }

/-- `handleAiEdit` success path: `setImage(newImageBase64)` and
`setEditPrompt('')`, nothing else. -/
def handleAiEditSuccess (s : AppState) (newImageBase64 : String) : AppState :=
  { s with image := newImageBase64, editPrompt := "" }

/-- `setCaptions` (used by `handleMagicCaption` and the panel close). -/
def setCaptions (s : AppState) (cs : List String) : AppState :=
  { s with captions := cs }

/-- `setEditPrompt` from the AI editor input. -/
def setEditPrompt (s : AppState) (p : String) : AppState :=
  { s with editPrompt := p }

/-! ### Drag controller (`src/components/MemeCanvas.tsx`) -/

/-- `MemeCanvas` interaction state: the `isDragging` flag and the
`dragStartRef` last-observed pointer position, over the app state. -/
structure CanvasState where
  app : AppState
  isDragging : Bool
  dragStart : Option (ℚ × ℚ)
deriving DecidableEq, Repr

/-- `handleMouseDown` on the text layer `i` at client point `p`:
selects `i`, starts dragging, records the pointer position. -/
def handleMouseDown (c : CanvasState) (i : String) (p : ℚ × ℚ) : CanvasState :=
  { app := setSelectedTextId c.app (some i)
    isDragging := true
    dragStart := some p }

/-- `handleMouseMove` at client point `p`: when a drag is active with a
selection and a recorded start, applies the pointer delta to the selected
text (when it is found) and records `p` as the new last position. -/
def handleMouseMove (c : CanvasState) (p : ℚ × ℚ) : CanvasState :=
  match c.isDragging, c.app.selectedTextId, c.dragStart with
  | true, some i, some q =>
      let dx := p.1 - q.1
      let dy := p.2 - q.2
      let app1 :=
        match c.app.texts.find? (fun t => t.id = i) with
        | some t => appUpdateText c.app i (positionPatch (t.x + dx) (t.y + dy))
        | none => c.app
      { app := app1, isDragging := c.isDragging, dragStart := some p }
  | _, _, _ => c

/-- `handleMouseUp` (also bound to mouse-leave): ends the drag session. -/
def handleMouseUp (c : CanvasState) : CanvasState :=
  { c with isDragging := false, dragStart := none }

/-- The font-increase button: `fontSize: Math.min(120, text.fontSize + 4)`. -/
def increaseFontSize (s : AppState) (t : MemeText) : AppState :=
  appUpdateText s t.id (fontSizePatch (min 120 (t.fontSize + 4)))

/-- The font-decrease button: `fontSize: Math.max(12, text.fontSize - 4)`. -/
def decreaseFontSize (s : AppState) (t : MemeText) : AppState :=
  appUpdateText s t.id (fontSizePatch (max 12 (t.fontSize - 4)))

/-! ### Export (`handleDownload`) -/

/-- A JavaScript number resulting from the export arithmetic: a finite
rational, an infinity, or NaN. -/
inductive JSVal where
  | num (q : ℚ)
  | posInf
  | negInf
  | nan
deriving DecidableEq, Repr

/-- JavaScript `/` on finite operands: division by zero yields a signed
infinity (NaN when the numerator is also zero). -/
def jsDiv (a b : ℚ) : JSVal :=
  if b = 0 then
    if a = 0 then JSVal.nan else if 0 < a then JSVal.posInf else JSVal.negInf
  else JSVal.num (a / b)

/-- JavaScript `*` of a possibly non-finite value by a finite one. -/
def jsMulNum (v : JSVal) (b : ℚ) : JSVal :=
  match v with
  | JSVal.num a => JSVal.num (a * b)
  | JSVal.posInf => if 0 < b then JSVal.posInf else if b < 0 then JSVal.negInf else JSVal.nan
  | JSVal.negInf => if 0 < b then JSVal.negInf else if b < 0 then JSVal.posInf else JSVal.nan
  | JSVal.nan => JSVal.nan

/-- The environment `handleDownload` reads from the DOM: presence of the
canvas ref, the 2d context and the `img` element, the image's natural
size, and the container's bounding-rect size. -/
structure ExportEnv where
  canvasRefPresent : Bool
  ctxPresent : Bool
  imgPresent : Bool
  naturalWidth : ℚ
  naturalHeight : ℚ
  containerWidth : ℚ
  containerHeight : ℚ
deriving DecidableEq, Repr

/-- One text layer as drawn on the export canvas. -/
structure DrawnText where
  content : String
  drawX : JSVal
  drawY : JSVal
  fontSize : JSVal
  color : String
deriving DecidableEq, Repr

/-- The produced raster: canvas dimensions and the drawn text layers in
store order. -/
structure ExportResult where
  width : ℚ
  height : ℚ
  drawn : List DrawnText
deriving DecidableEq, Repr

/-- The per-text body of `handleDownload`'s loop:
`relativeX = text.x / containerRect.width`, `drawX = relativeX * canvas.width`
(symmetrically for y), `fontSize = (text.fontSize / containerRect.width) * canvas.width`. -/
def drawText (env : ExportEnv) (t : MemeText) : DrawnText :=
  { content := t.content
    drawX := jsMulNum (jsDiv t.x env.containerWidth) env.naturalWidth
    drawY := jsMulNum (jsDiv t.y env.containerHeight) env.naturalHeight
    fontSize := jsMulNum (jsDiv t.fontSize env.containerWidth) env.naturalWidth
    color := t.color }

/-- `handleDownload`: returns early (no artifact, no reported error) when
the canvas ref, the 2d context or the `img` element is missing; otherwise
sizes the canvas to the image's natural size, draws every text layer and
produces the artifact. -/
def handleDownload (env : ExportEnv) (texts : List MemeText) : Option ExportResult :=
  if !env.canvasRefPresent then none
  else if !env.ctxPresent || !env.imgPresent then none
  else some
    { width := env.naturalWidth
      height := env.naturalHeight
      drawn := texts.map (drawText env) }

/-! ### Derived helpers for stating the claims -/

/-- The position of the text layer with id `i`, when present
(via `texts.find(t => t.id === selectedTextId)` as the drag handler does). -/
def posOf (s : AppState) (i : String) : Option (ℚ × ℚ) :=
  (s.texts.find? fun t => t.id = i).map fun t => (t.x, t.y)

/-- Process a list of pointer-move client points in order. -/
def runMoves (c : CanvasState) (ps : List (ℚ × ℚ)) : CanvasState :=
  ps.foldl handleMouseMove c

/-- The absolute pointer positions visited when moving from `q` by the
successive deltas `ds`. -/
def positionsFrom (q : ℚ × ℚ) : List (ℚ × ℚ) → List (ℚ × ℚ)
  | [] => []
  | d :: ds => (q + d) :: positionsFrom (q + d) ds

/-- Process a list of `(Date.now(), content)` add events in order. -/
def runAdds (s : AppState) (evs : List (Nat × String)) : AppState :=
  evs.foldl (fun a e => addText a e.1 e.2) s

/-- The states the application can reach: the initial state followed by
any sequence of the event handlers wired in the source.  The only
handlers that write a `fontSize` are the two font buttons of
`MemeCanvas`, which clamp with `Math.min(120, ...)` / `Math.max(12, ...)`. -/
inductive Reachable : AppState → Prop where
  | init : Reachable initialState
  | fileUpload {s} (url : String) : Reachable s → Reachable (handleFileUpload s url)
  | template {s} (url : String) : Reachable s → Reachable (selectTemplate s url)
  | randomImage {s} (now : Nat) : Reachable s → Reachable (setRandomImage s now)
  | aiEdit {s} (img : String) : Reachable s → Reachable (handleAiEditSuccess s img)
  | captionsSet {s} (cs : List String) : Reachable s → Reachable (setCaptions s cs)
  | promptSet {s} (p : String) : Reachable s → Reachable (setEditPrompt s p)
  | add {s} (now : Nat) (content : String) : Reachable s → Reachable (addText s now content)
  | remove {s} (i : String) : Reachable s → Reachable (removeText s i)
  | selectId {s} (i : Option String) : Reachable s → Reachable (setSelectedTextId s i)
  | editContent {s} (i : String) (c : String) :
      Reachable s → Reachable (appUpdateText s i (contentPatch c))
  | editColor {s} (i : String) (c : String) :
      Reachable s → Reachable (appUpdateText s i (colorPatch c))
  | dragMove {s} (i : String) (px py : ℚ) :
      Reachable s → Reachable (appUpdateText s i (positionPatch px py))
  | fontInc {s} (t : MemeText) : Reachable s → t ∈ s.texts →
      Reachable (increaseFontSize s t)
  | fontDec {s} (t : MemeText) : Reachable s → t ∈ s.texts →
      Reachable (decreaseFontSize s t)

/-! ### Decimal decoding, for injectivity of `Nat.repr` -/

/-- Numeric value of a decimal digit character. -/
def charVal (c : Char) : Nat := c.toNat - 48

/-- Decode a decimal digit string with an accumulator. -/
def decodeAux (acc : Nat) : List Char → Nat
  | [] => acc
  | c :: cs => decodeAux (acc * 10 + charVal c) cs

/-! ### Concrete fixtures for counterexamples and witnesses -/

/-- A concrete top text layer. -/
def tTop : MemeText := ⟨"1", "TOP", 100, 50, 40, "#FFFFFF"⟩

/-- A concrete bottom text layer. -/
def tBottom : MemeText := ⟨"2", "BOTTOM", 100, 250, 40, "#FFFFFF"⟩

/-- A concrete state holding two text layers, the first selected. -/
def twoTextState : AppState :=
  { image := "https://picsum.photos/800/600"
    texts := [tTop, tBottom]
    selectedTextId := some "1"
    captions := []
    editPrompt := "" }

/-! ### Helper lemmas -/

lemma charVal_digitChar (d : Nat) (h : d < 10) : charVal (Nat.digitChar d) = d := by
  interval_cases d <;> rfl

lemma toDigitsCore_succ (b fuel n : Nat) (ds : List Char) :
    Nat.toDigitsCore b (fuel + 1) n ds =
      if n / b = 0 then Nat.digitChar (n % b) :: ds
      else Nat.toDigitsCore b fuel (n / b) (Nat.digitChar (n % b) :: ds) := by
  show (if n / b = 0 then Nat.digitChar (n % b) :: ds
      else Nat.toDigitsCore b fuel (n / b) (Nat.digitChar (n % b) :: ds)) = _
  rfl

lemma decodeAux_toDigitsCore :
    ∀ (fuel n acc : Nat) (ds : List Char), n < fuel →
    ∃ k, decodeAux acc (Nat.toDigitsCore 10 fuel n ds) = decodeAux (acc * 10 ^ k + n) ds := by
  intro fuel
  induction fuel with
  | zero => intro n acc ds h; exact absurd h (Nat.not_lt_zero n)
  | succ fuel ih =>
    intro n acc ds h
    by_cases h10 : n / 10 = 0
    · refine ⟨1, ?_⟩
      have hn : n < 10 := by omega
      rw [toDigitsCore_succ, if_pos h10]
      show decodeAux (acc * 10 + charVal (Nat.digitChar (n % 10))) ds = _
      rw [charVal_digitChar (n % 10) (Nat.mod_lt _ (by norm_num)), Nat.mod_eq_of_lt hn]
      ring_nf
    · have hne : n ≠ 0 := by
        intro h0; exact h10 (by simp [h0])
      have hlt : n / 10 < fuel := by
        have h1 : n / 10 < n := Nat.div_lt_self (Nat.pos_of_ne_zero hne) (by norm_num)
        omega
      obtain ⟨k, hk⟩ := ih (n / 10) acc (Nat.digitChar (n % 10) :: ds) hlt
      refine ⟨k + 1, ?_⟩
      have harith : (acc * 10 ^ k + n / 10) * 10 + n % 10 = acc * 10 ^ (k + 1) + n := by
        rw [pow_succ, ← mul_assoc]
        generalize acc * 10 ^ k = P
        omega
      rw [toDigitsCore_succ, if_neg h10, hk]
      show decodeAux ((acc * 10 ^ k + n / 10) * 10 + charVal (Nat.digitChar (n % 10))) ds = _
      rw [charVal_digitChar (n % 10) (Nat.mod_lt _ (by norm_num)), harith]

lemma decodeAux_toDigits (n : Nat) : decodeAux 0 (Nat.toDigits 10 n) = n := by
  obtain ⟨k, hk⟩ := decodeAux_toDigitsCore (n + 1) n 0 [] (Nat.lt_succ_self n)
  calc decodeAux 0 (Nat.toDigits 10 n) = decodeAux (0 * 10 ^ k + n) [] := hk
    _ = 0 * 10 ^ k + n := rfl
    _ = n := by simp

lemma repr_injective : Function.Injective Nat.repr := by
  intro m n h
  have hl : Nat.toDigits 10 m = Nat.toDigits 10 n := congrArg String.data h
  calc m = decodeAux 0 (Nat.toDigits 10 m) := (decodeAux_toDigits m).symm
    _ = decodeAux 0 (Nat.toDigits 10 n) := by rw [hl]
    _ = n := decodeAux_toDigits n

/-! ### Claims -/

/-- C2 counterexample: with two text layers present and the first
selected, a successful AI edit replaces the base image but leaves both
text layers in place, and a file upload replaces the base image and the
texts but leaves the stale selection in place — the claim that every
base-image replacement yields 0 layers and no selection is false. -/
theorem replace_image_clears_counterexample :
    twoTextState.texts.length = 2 ∧
    (handleAiEditSuccess twoTextState "data:image/png;base64,AAA").texts.length = 2 ∧
    (handleFileUpload twoTextState "data:image/png;base64,AAA").selectedTextId = some "1" :=
  ⟨rfl, rfl, rfl⟩

/-- C2 amended: replacing the base image by file upload empties the text
collection and the caption list but leaves the selection unchanged;
replacing it by template selection, by the Random button, or by a
successful AI edit leaves both the text collection and the selection
unchanged. -/
theorem replace_image_amended (s : AppState) (url : String) (now : Nat) :
    (handleFileUpload s url).texts = [] ∧
    (handleFileUpload s url).captions = [] ∧
    (handleFileUpload s url).selectedTextId = s.selectedTextId ∧
    (selectTemplate s url).texts = s.texts ∧
    (selectTemplate s url).selectedTextId = s.selectedTextId ∧
    (setRandomImage s now).texts = s.texts ∧
    (setRandomImage s now).selectedTextId = s.selectedTextId ∧
    (handleAiEditSuccess s url).texts = s.texts ∧
    (handleAiEditSuccess s url).selectedTextId = s.selectedTextId :=
  ⟨rfl, rfl, rfl, rfl, rfl, rfl, rfl, rfl, rfl⟩

/-- C5 counterexample: after removing the text layer with id `"1"` the
id is no longer present, yet selecting `"1"` sets the selection to
`some "1"`, not to none — the claim is false. -/
theorem select_missing_id_counterexample :
    (removeText twoTextState "1").texts = [tBottom] ∧
    (setSelectedTextId (removeText twoTextState "1") (some "1")).selectedTextId = some "1" ∧
    some "1" ≠ (none : Option String) :=
  ⟨by decide, rfl, by decide⟩

/-- C5 amended: the selection setter stores the given id unconditionally,
whether or not a text layer with that id exists; `removeText i` itself
resets the selection to none exactly when the removed id was selected, so
`removeText i` followed by selecting `i` yields `some i` (a stale id),
not none. -/
theorem select_raw_setter_amended (s : AppState) (i : String) :
    (setSelectedTextId s (some i)).selectedTextId = some i ∧
    (setSelectedTextId (removeText s i) (some i)).selectedTextId = some i ∧
    (removeText s i).texts = s.texts.filter (fun t => t.id ≠ i) ∧
    (removeText s i).selectedTextId =
      (if s.selectedTextId = some i then none else s.selectedTextId) :=
  ⟨rfl, rfl, rfl, rfl⟩

/-- C9: choosing a caption suggestion calls `addText caption`, which
appends exactly one fresh text layer at the end of the collection, whose
content is the clicked suggestion string, and which becomes the current
selection. -/
theorem caption_click_appends_and_selects (s : AppState) (now : Nat) (caption : String) :
    (addText s now caption).texts = s.texts ++ [newText now caption] ∧
    (newText now caption).content = caption ∧
    (addText s now caption).selectedTextId = some (newText now caption).id :=
  ⟨rfl, rfl, rfl⟩

/-- C10: `updateText` preserves the length and order of the collection,
rewrites exactly the entries whose id matches (through `applyPatch`),
leaves entries with a different id unchanged, leaves the collection
unchanged when no entry has the id, and `applyPatch` changes only the
fields present in the patch. -/
theorem updateText_frame (texts : List MemeText) (i : String) (p : MemeTextPatch) :
    (updateText texts i p).length = texts.length ∧
    (∀ j : Nat, (updateText texts i p)[j]? =
      texts[j]?.map fun t => if t.id = i then applyPatch p t else t) ∧
    (∀ j : Nat, ∀ t : MemeText, texts[j]? = some t → t.id ≠ i →
      (updateText texts i p)[j]? = some t) ∧
    ((∀ t ∈ texts, t.id ≠ i) → updateText texts i p = texts) ∧
    (∀ t : MemeText,
      (p.content = none → (applyPatch p t).content = t.content) ∧
      (p.x = none → (applyPatch p t).x = t.x) ∧
      (p.y = none → (applyPatch p t).y = t.y) ∧
      (p.fontSize = none → (applyPatch p t).fontSize = t.fontSize) ∧
      (p.color = none → (applyPatch p t).color = t.color) ∧
      (p.id = none → (applyPatch p t).id = t.id)) := by
  refine ⟨by simp [updateText], ?_, ?_, ?_, ?_⟩
  · intro j
    simp [updateText, List.getElem?_map]
  · intro j t ht hne
    simp [updateText, List.getElem?_map, ht, hne]
  · intro hall
    have hfix : ∀ t ∈ texts, (if t.id = i then applyPatch p t else t) = t := by
      intro t ht; rw [if_neg (hall t ht)]
    rw [updateText, List.map_congr_left hfix]; simp
  · intro t
    exact ⟨fun h => by simp [applyPatch, h], fun h => by simp [applyPatch, h],
      fun h => by simp [applyPatch, h], fun h => by simp [applyPatch, h],
      fun h => by simp [applyPatch, h], fun h => by simp [applyPatch, h]⟩

/-- C10 witness: the frame conditions evaluated on a concrete
two-element collection. -/
theorem updateText_frame_witness :
    (updateText [tTop, tBottom] "1" (fontSizePatch 50)).length = 2 ∧
    (updateText [tTop, tBottom] "1" (fontSizePatch 50))[1]? = some tBottom ∧
    updateText [tTop, tBottom] "3" (fontSizePatch 50) = [tTop, tBottom] := by
  have h1 := updateText_frame [tTop, tBottom] "1" (fontSizePatch 50)
  have h3 := updateText_frame [tTop, tBottom] "3" (fontSizePatch 50)
  exact ⟨h1.1, h1.2.2.1 1 tBottom rfl (by decide), h3.2.2.2.1 (by decide)⟩

/-- C1: with the export preconditions met and a laid-out container
(nonzero sizes), `handleDownload` draws each text layer at the natural
point `x * naturalWidth / containerWidth` (symmetrically for y) with the
font size scaled by the same `naturalWidth / containerWidth` ratio. -/
theorem export_scales_to_natural (env : ExportEnv) (t : MemeText)
    (href : env.canvasRefPresent = true) (hctx : env.ctxPresent = true)
    (himg : env.imgPresent = true)
    (hw : env.containerWidth ≠ 0) (hh : env.containerHeight ≠ 0) :
    handleDownload env [t] = some
      { width := env.naturalWidth
        height := env.naturalHeight
        drawn := [{ content := t.content
                    drawX := JSVal.num (t.x * env.naturalWidth / env.containerWidth)
                    drawY := JSVal.num (t.y * env.naturalHeight / env.containerHeight)
                    fontSize := JSVal.num (t.fontSize * env.naturalWidth / env.containerWidth)
                    color := t.color }] } := by
  simp only [handleDownload, href, hctx, himg, Bool.not_true, Bool.false_or,
    Bool.or_self, if_false, List.map_cons, List.map_nil, ite_false]
  refine congrArg some ?_
  simp only [drawText, jsDiv, jsMulNum, hw, hh, if_false, div_mul_eq_mul_div]

/-- C1 witness: container 400x300, natural size 800x600, a text layer at
(100,150) with font size 40 exports to natural point (200,300) with
natural font size 80. -/
theorem export_scales_to_natural_witness :
    handleDownload ⟨true, true, true, 800, 600, 400, 300⟩
        [⟨"1", "TOP", 100, 150, 40, "#FFFFFF"⟩] = some
      { width := 800
        height := 600
        drawn := [⟨"TOP", JSVal.num 200, JSVal.num 300, JSVal.num 80, "#FFFFFF"⟩] } := by
  have h := export_scales_to_natural ⟨true, true, true, 800, 600, 400, 300⟩
      ⟨"1", "TOP", 100, 150, 40, "#FFFFFF"⟩ rfl rfl rfl (by norm_num) (by norm_num)
  rw [h]
  norm_num

/-- C6 counterexample: with the image element present but not yet loaded
(natural size 0), export does not abort and reports no error — it
produces an artifact with a zero-size canvas, contradicting the claim
that export fails with a reported error and no output. -/
theorem export_unloaded_image_counterexample :
    handleDownload ⟨true, true, true, 0, 0, 400, 300⟩ [tTop] = some
      { width := 0
        height := 0
        drawn := [⟨"TOP", JSVal.num 0, JSVal.num 0, JSVal.num 0, "#FFFFFF"⟩] } := by
  simp [handleDownload, drawText, tTop, jsDiv, jsMulNum]

/-- C6 amended: export aborts silently — no artifact and no reported
error — exactly when the canvas ref, the 2d context or the `img` element
is missing; whenever all three are present it produces the artifact
sized at the image's natural size, even when that size is zero because
the image has not finished loading. -/
theorem export_guard_amended (env : ExportEnv) (texts : List MemeText) :
    handleDownload env texts =
      (if env.canvasRefPresent && env.ctxPresent && env.imgPresent then
        some { width := env.naturalWidth
               height := env.naturalHeight
               drawn := texts.map (drawText env) }
      else none) := by
  cases href : env.canvasRefPresent <;> cases hctx : env.ctxPresent <;>
    cases himg : env.imgPresent <;> simp [handleDownload, href, hctx, himg]

/-- C7 counterexample: with a zero-width container the conversion is not
skipped and the export step is not deferred: export proceeds and assigns
the non-finite value Infinity to the x coordinate and the font size. -/
theorem zero_width_container_counterexample :
    handleDownload ⟨true, true, true, 800, 600, 0, 300⟩ [tTop] = some
      { width := 800
        height := 600
        drawn := [⟨"TOP", JSVal.posInf, JSVal.num 100, JSVal.posInf, "#FFFFFF"⟩] } := by
  simp [handleDownload, drawText, tTop, jsDiv, jsMulNum]
  norm_num

/-- C7 amended: when the container has zero width at conversion time the
code performs the conversion anyway: with a positive natural width, a
text layer with positive x (resp. positive font size) is drawn at the
non-finite coordinate Infinity — NaN when x is zero — and export still
produces the artifact instead of skipping or deferring. -/
theorem zero_width_container_amended (env : ExportEnv) (t : MemeText)
    (hcw : env.containerWidth = 0) (hnw : 0 < env.naturalWidth) :
    (0 < t.x → (drawText env t).drawX = JSVal.posInf) ∧
    (t.x = 0 → (drawText env t).drawX = JSVal.nan) ∧
    (0 < t.fontSize → (drawText env t).fontSize = JSVal.posInf) ∧
    (env.canvasRefPresent = true → env.ctxPresent = true → env.imgPresent = true →
      handleDownload env [t] = some
        { width := env.naturalWidth
          height := env.naturalHeight
          drawn := [drawText env t] }) := by
  refine ⟨?_, ?_, ?_, ?_⟩
  · intro hx
    simp [drawText, jsDiv, jsMulNum, hcw, hx, ne_of_gt hx, hnw, not_lt.mpr (le_of_lt hx)]
  · intro hx
    simp [drawText, jsDiv, jsMulNum, hcw, hx]
  · intro hf
    simp [drawText, jsDiv, jsMulNum, hcw, hf, ne_of_gt hf, hnw, not_lt.mpr (le_of_lt hf)]
  · intro href hctx himg
    simp [handleDownload, href, hctx, himg]

/-- C7 witness: the amended statement evaluated at a concrete zero-width
container. -/
theorem zero_width_container_amended_witness :
    (drawText ⟨true, true, true, 800, 600, 0, 300⟩ tTop).drawX = JSVal.posInf ∧
    handleDownload ⟨true, true, true, 800, 600, 0, 300⟩ [tTop] = some
      { width := 800
        height := 600
        drawn := [drawText ⟨true, true, true, 800, 600, 0, 300⟩ tTop] } := by
  have h := zero_width_container_amended ⟨true, true, true, 800, 600, 0, 300⟩ tTop rfl
      (by norm_num)
  exact ⟨h.1 (by norm_num [tTop]), h.2.2.2 rfl rfl rfl⟩

/-! ### Membership and find lemmas for the store operations -/

lemma mem_updateText {t' : MemeText} {texts : List MemeText} {i : String} {p : MemeTextPatch}
    (h : t' ∈ updateText texts i p) :
    ∃ t ∈ texts, t' = t ∨ t' = applyPatch p t := by
  rw [updateText, List.mem_map] at h
  obtain ⟨t, ht, he⟩ := h
  refine ⟨t, ht, ?_⟩
  by_cases hid : t.id = i
  · rw [if_pos hid] at he; exact Or.inr he.symm
  · rw [if_neg hid] at he; exact Or.inl he.symm

lemma applyPatch_id {p : MemeTextPatch} (hp : p.id = none) (t : MemeText) :
    (applyPatch p t).id = t.id := by
  simp [applyPatch, hp]

lemma find?_updateText {texts : List MemeText} {i : String} {p : MemeTextPatch}
    (hp : p.id = none) :
    (updateText texts i p).find? (fun t => t.id = i) =
      (texts.find? (fun t => t.id = i)).map (applyPatch p) := by
  rw [updateText, List.find?_map]
  have hpred : ((fun t : MemeText => decide (t.id = i)) ∘
      (fun t => if t.id = i then applyPatch p t else t)) =
      (fun t : MemeText => decide (t.id = i)) := by
    funext t
    by_cases hid : t.id = i
    · simp [hid, applyPatch_id hp]
    · simp [hid]
  rw [show (fun t : MemeText => decide (t.id = i)) ∘
      (fun t => if t.id = i then applyPatch p t else t) =
      (fun t : MemeText => decide (t.id = i)) from hpred]
  cases hfind : texts.find? (fun t => t.id = i) with
  | none => rfl
  | some t0 =>
    have h0 : t0.id = i := by simpa using List.find?_some hfind
    simp [if_pos h0]

/-! ### Drag lemmas -/

lemma handleMouseMove_posOf (c : CanvasState) (i : String) (q p xy : ℚ × ℚ)
    (hd : c.isDragging = true) (hs : c.app.selectedTextId = some i)
    (hq : c.dragStart = some q) (hpos : posOf c.app i = some xy) :
    posOf (handleMouseMove c p).app i = some (xy + (p - q)) ∧
    (handleMouseMove c p).isDragging = true ∧
    (handleMouseMove c p).app.selectedTextId = some i ∧
    (handleMouseMove c p).dragStart = some p := by
  obtain ⟨t, hfind, hxy⟩ : ∃ t, c.app.texts.find? (fun t => t.id = i) = some t ∧
      (t.x, t.y) = xy := by
    rw [posOf] at hpos
    cases hf : c.app.texts.find? (fun t => t.id = i) with
    | none => rw [hf] at hpos; simp at hpos
    | some t0 => rw [hf] at hpos; simp at hpos; exact ⟨t0, rfl, hpos⟩
  have hred : handleMouseMove c p =
      { app := appUpdateText c.app i
          (positionPatch (t.x + (p.1 - q.1)) (t.y + (p.2 - q.2)))
        isDragging := true
        dragStart := some p } := by
    simp only [handleMouseMove, hd, hs, hq, hfind]
  refine ⟨?_, by rw [hred], by rw [hred]; exact hs, by rw [hred]⟩
  rw [hred]
  show ((updateText c.app.texts i
      (positionPatch (t.x + (p.1 - q.1)) (t.y + (p.2 - q.2)))).find?
        (fun t => t.id = i)).map (fun t => (t.x, t.y)) = _
  rw [find?_updateText rfl, hfind, Option.map_some', Option.map_some', ← hxy]
  rfl

lemma runMoves_posOf (i : String) (ds : List (ℚ × ℚ)) :
    ∀ (c : CanvasState) (q xy : ℚ × ℚ),
    c.isDragging = true → c.app.selectedTextId = some i → c.dragStart = some q →
    posOf c.app i = some xy →
    posOf (runMoves c (positionsFrom q ds)).app i = some (xy + ds.sum) := by
  induction ds with
  | nil =>
    intro c q xy hd hs hq hpos
    simpa [runMoves, positionsFrom] using hpos
  | cons d ds ih =>
    intro c q xy hd hs hq hpos
    have h1 := handleMouseMove_posOf c i q (q + d) xy hd hs hq hpos
    have hdel : xy + (q + d - q) = xy + d := by rw [add_sub_cancel_left]
    have h2 := ih (handleMouseMove c (q + d)) (q + d) (xy + d)
      h1.2.1 h1.2.2.1 h1.2.2.2 (hdel ▸ h1.1)
    have hrun : runMoves c (positionsFrom q (d :: ds)) =
        runMoves (handleMouseMove c (q + d)) (positionsFrom (q + d) ds) := rfl
    rw [hrun, h2, List.sum_cons, add_assoc]

/-! ### addText lemmas -/

lemma runAdds_texts (evs : List (Nat × String)) :
    ∀ s : AppState, (runAdds s evs).texts = s.texts ++ evs.map (fun e => newText e.1 e.2) := by
  induction evs with
  | nil => intro s; simp [runAdds]
  | cons e evs ih =>
    intro s
    have hstep : runAdds s (e :: evs) = runAdds (addText s e.1 e.2) evs := rfl
    rw [hstep, ih, addText]
    simp

/-! ### Remaining claims -/

/-- C3: in every reachable application state, every text layer's
`fontSize` lies within `[12, 120]`: the only mutations that write a
`fontSize` are the increment/decrement controls, which change it by a
step of 4 through `Math.min(120, ...)` / `Math.max(12, ...)`, clamped
rather than rejected. -/
theorem fontSize_clamped (s : AppState) (h : Reachable s) :
    ∀ t ∈ s.texts, 12 ≤ t.fontSize ∧ t.fontSize ≤ 120 := by
  induction h with
  | init => intro t ht; simp [initialState] at ht
  | fileUpload url hs ih => intro t ht; simp [handleFileUpload] at ht
  | template url hs ih => intro t ht; exact ih t ht
  | randomImage now hs ih => intro t ht; exact ih t ht
  | aiEdit img hs ih => intro t ht; exact ih t ht
  | captionsSet cs hs ih => intro t ht; exact ih t ht
  | promptSet p hs ih => intro t ht; exact ih t ht
  | add now content hs ih =>
    intro t ht
    rw [addText] at ht
    rcases List.mem_append.mp ht with hold | hnew
    · exact ih t hold
    · have : t = newText now content := by simpa using hnew
      rw [this]
      norm_num [newText]
  | remove i hs ih =>
    intro t ht
    exact ih t (List.mem_of_mem_filter ht)
  | selectId i hs ih => intro t ht; exact ih t ht
  | editContent i c hs ih =>
    intro t ht
    obtain ⟨t0, ht0, hor⟩ := mem_updateText ht
    rcases hor with h | h
    · rw [h]; exact ih t0 ht0
    · rw [h]
      have hb := ih t0 ht0
      simpa [applyPatch, contentPatch, emptyPatch] using hb
  | editColor i c hs ih =>
    intro t ht
    obtain ⟨t0, ht0, hor⟩ := mem_updateText ht
    rcases hor with h | h
    · rw [h]; exact ih t0 ht0
    · rw [h]
      have hb := ih t0 ht0
      simpa [applyPatch, colorPatch, emptyPatch] using hb
  | dragMove i px py hs ih =>
    intro t ht
    obtain ⟨t0, ht0, hor⟩ := mem_updateText ht
    rcases hor with h | h
    · rw [h]; exact ih t0 ht0
    · rw [h]
      have hb := ih t0 ht0
      simpa [applyPatch, positionPatch, emptyPatch] using hb
  | fontInc tt hs htt ih =>
    intro t ht
    obtain ⟨t0, ht0, hor⟩ := mem_updateText ht
    rcases hor with h | h
    · rw [h]; exact ih t0 ht0
    · have hb := ih tt htt
      have hfs : (applyPatch (fontSizePatch (min 120 (tt.fontSize + 4))) t0).fontSize
          = min 120 (tt.fontSize + 4) := rfl
      rw [h]
      constructor
      · rw [hfs]; exact le_min (by norm_num) (by linarith [hb.1])
      · rw [hfs]; exact min_le_left _ _
  | fontDec tt hs htt ih =>
    intro t ht
    obtain ⟨t0, ht0, hor⟩ := mem_updateText ht
    rcases hor with h | h
    · rw [h]; exact ih t0 ht0
    · have hb := ih tt htt
      have hfs : (applyPatch (fontSizePatch (max 12 (tt.fontSize - 4))) t0).fontSize
          = max 12 (tt.fontSize - 4) := rfl
      rw [h]
      constructor
      · rw [hfs]; exact le_max_left _ _
      · rw [hfs]; exact max_le (by norm_num) (by linarith [hb.2])

/-- C3 witness: the invariant applied to the reachable state obtained by
one `addText` from the initial state. -/
theorem fontSize_clamped_witness :
    12 ≤ (newText 1 "HELLO").fontSize ∧ (newText 1 "HELLO").fontSize ≤ 120 := by
  have h := fontSize_clamped (addText initialState 1 "HELLO")
    (Reachable.add 1 "HELLO" Reachable.init)
  exact h (newText 1 "HELLO") (by simp [addText, initialState])

/-- C4: starting a drag on the layer with id `i` at pointer position `q`
and processing any sequence of pointer moves leaves the layer at its
initial position plus the sum of the move deltas; a pointer-down
immediately followed by pointer-up leaves the position unchanged. -/
theorem drag_moves_accumulate (app : AppState) (i : String) (t : MemeText)
    (q : ℚ × ℚ) (ds : List (ℚ × ℚ))
    (ht : app.texts.find? (fun t' => t'.id = i) = some t) :
    posOf (runMoves (handleMouseDown ⟨app, false, none⟩ i q) (positionsFrom q ds)).app i
      = some ((t.x, t.y) + ds.sum) ∧
    posOf (handleMouseUp (handleMouseDown ⟨app, false, none⟩ i q)).app i
      = some (t.x, t.y) := by
  have hpos : posOf (handleMouseDown ⟨app, false, none⟩ i q).app i = some (t.x, t.y) := by
    show (app.texts.find? fun t' => t'.id = i).map (fun t => (t.x, t.y)) = some (t.x, t.y)
    rw [ht, Option.map_some']
  refine ⟨runMoves_posOf i ds _ q (t.x, t.y) rfl rfl rfl hpos, ?_⟩
  show (app.texts.find? fun t' => t'.id = i).map (fun t => (t.x, t.y)) = some (t.x, t.y)
  rw [ht, Option.map_some']

/-- C4 witness: a drag of the first layer of the concrete two-layer
state: deltas (10,0), (0,10), (-5,-5) move it from (100,50) to (105,55),
and a down-then-up at the same point leaves it at (100,50). -/
theorem drag_moves_accumulate_witness :
    posOf (runMoves (handleMouseDown ⟨twoTextState, false, none⟩ "1" (0, 0))
        (positionsFrom (0, 0) [(10, 0), (0, 10), (-5, -5)])).app "1"
      = some (105, 55) ∧
    posOf (handleMouseUp (handleMouseDown ⟨twoTextState, false, none⟩ "1" (0, 0))).app "1"
      = some (100, 50) := by
  have h := drag_moves_accumulate twoTextState "1" tTop (0, 0)
    [(10, 0), (0, 10), (-5, -5)] rfl
  have hsum : ((tTop.x, tTop.y) : ℚ × ℚ) + ([(10, 0), (0, 10), (-5, -5)] :
      List (ℚ × ℚ)).sum = (105, 55) := by
    simp [tTop, Prod.ext_iff]
    norm_num
  rw [hsum] at h
  exact ⟨h.1, h.2⟩

/-- C8 counterexample: two `addText` calls in the same millisecond (equal
`Date.now()`) assign the same id to both layers, so ids in the active
collection are not pairwise distinct. -/
theorem duplicate_id_counterexample :
    ((addText (addText initialState 100 "A") 100 "B").texts.map (fun t => t.id)) =
      [Nat.repr 100, Nat.repr 100] ∧
    ¬ ((addText (addText initialState 100 "A") 100 "B").texts.map (fun t => t.id)).Nodup := by
  constructor
  · rfl
  · intro h
    rw [show ((addText (addText initialState 100 "A") 100 "B").texts.map (fun t => t.id)) =
        [Nat.repr 100, Nat.repr 100] from rfl] at h
    simp at h

/-- C8 amended: `addText` assigns as id the decimal representation of
the current `Date.now()` value; the ids in the collection are pairwise
distinct provided the adds that created them occurred at pairwise
distinct timestamps. -/
theorem add_ids_unique_amended (evs : List (Nat × String))
    (h : (evs.map Prod.fst).Nodup) :
    ((runAdds initialState evs).texts.map (fun t => t.id)).Nodup := by
  rw [runAdds_texts]
  have hinit : initialState.texts = [] := rfl
  rw [hinit, List.nil_append, List.map_map]
  have hcomp : ((fun t : MemeText => t.id) ∘ (fun e : Nat × String => newText e.1 e.2)) =
      (Nat.repr ∘ Prod.fst) := by
    funext e; rfl
  rw [hcomp, ← List.map_map]
  exact h.map repr_injective

/-- C8 amended witness: two adds at distinct timestamps yield distinct
ids. -/
theorem add_ids_unique_amended_witness :
    (([((1 : Nat), "A"), (2, "B")].map Prod.fst).Nodup) ∧
    ((runAdds initialState [(1, "A"), (2, "B")]).texts.map (fun t => t.id)).Nodup :=
  ⟨by decide, add_ids_unique_amended _ (by decide)⟩

end MemeGen
